import Mathlib

/-!
Verification of the ABYO (Algal Bloom Yearly Occurrences) extraction and
aggregation pipeline, a shallow embedding of `src/modules/abyo.py`.

Conventions of the embedding:
* `float` values (coordinates, attribute counts) are modelled as `ℚ`;
  integer columns as `ℤ`; machine floats are idealized as exact rationals.
* Calls into the external Google Earth Engine wrapper (`modules/gee.py`,
  not part of the sources) are modelled from the spec as explicit oracle
  parameters or abstract data, each marked in its doc comment.
* Stateful methods of the `Abyo` class become pure functions taking the
  relevant object state and returning the new state explicitly.
-/

namespace Abyo

/-- `Abyo.attributes`: the per-pixel attributes used in the time series. -/
def attributes : List String := ["cloud", "label", "occurrence", "not_occurrence"]

/-- `abs(Abyo.dummy)` where `dummy = -99999`: the sentinel used for masked
pixels; rows carrying it in non-cloud columns are scrubbed. -/
def dummy : ℚ := 99999

/-- Modelled from the spec: `gee.get_geometry_from_lat_lon` lives in
`modules/gee.py`, which is not among the sources; per the spec a Region is
"a rectangle defined by two (latitude, longitude) corner pairs".  The four
fields are the two corner pairs in the order they appear in the
comma-separated string the code builds. -/
structure Region where
  lat1 : ℚ
  lon1 : ℚ
  lat2 : ℚ
  lon2 : ℚ
deriving DecidableEq

/-- The object state `Abyo.sample_lon_lat = [[lat_min, lon_min], [lat_max,
lon_max]]`, the min/max coordinates observed on the sample image. -/
structure SampleBounds where
  latMin : ℚ
  lonMin : ℚ
  latMax : ℚ
  lonMax : ℚ
deriving DecidableEq

/-- `np.linspace start stop num`: `num` evenly spaced points from `start`
to `stop`, both endpoints included (`start + i * (stop - start) / (num - 1)`). -/
def linspace (start stop : ℚ) (num : ℕ) : List ℚ :=
  (List.range num).map (fun i : ℕ => start + (i : ℚ) * (stop - start) / ((num : ℚ) - 1))

/-- `math.ceil(a / b)` on naturals. -/
def ceilDiv (a b : ℕ) : ℕ := (a + b - 1) / b

/-- `Abyo.split_geometry`.  State used: `sample_total_pixel` (estimated
pixel count of the sample image), `max_tile_pixels` (the pixel budget),
`lat_lon` (the user-supplied Region) and `sample_lon_lat`.  If
`sample_total_pixel * (len(attributes) + 2)` exceeds the budget the
region is cut along a `(tiles+1) × (tiles+1)` grid of `np.linspace`
break points with `tiles = ceil(sample_total_pixel / max_tile_pixels)`,
emitted row-major (outer index over the first axis); otherwise the full
region is returned as the only tile.  (The code's local variable
`latitudes` holds `np.linspace` over `sample_lon_lat[0][1] .. [1][1]`,
i.e. the longitude components, and `longitudes` the latitude components;
the embedding mirrors the code's indexing exactly.) -/
def split_geometry (sample_total_pixel max_tile_pixels : ℕ)
    (lat_lon : Region) (s : SampleBounds) : List Region :=
  let total := sample_total_pixel * (attributes.length + 2)
  if total > max_tile_pixels then
    let tiles := ceilDiv sample_total_pixel max_tile_pixels
    let latitudes := linspace s.lonMin s.lonMax (tiles + 1)
    let longitudes := linspace s.latMin s.latMax (tiles + 1)
    (List.range tiles).flatMap (fun i =>
      (List.range tiles).map (fun j =>
        { lat1 := latitudes.getD i 0, lon1 := longitudes.getD j 0,
          lat2 := latitudes.getD (i + 1) 0, lon2 := longitudes.getD (j + 1) 0 }))
  else
    [lat_lon]

/-- The `i`-th break point of the tiling grid on the axis from `a` to `b`
with `n` tiles: `np.linspace a b (n+1)` evaluated at `i`. -/
def gridPoint (a b : ℚ) (n i : ℕ) : ℚ := a + i * (b - a) / n

end Abyo

/-!  The MD5 digest (`hashlib.md5`), computed over byte lists modelled as
`List ℕ`, with 32-bit words as naturals reduced `% 2^32`.  Verified against
the RFC 1321 test vectors. -/

namespace MD5

def m32 : ℕ := 4294967296

/-- Bitwise complement on 32-bit words. -/
def not32 (x : ℕ) : ℕ := m32 - 1 - x % m32

/-- Left rotation of a 32-bit word. -/
def rotl (x s : ℕ) : ℕ := (x * 2 ^ s) % m32 + x / 2 ^ (32 - s)

/-- The sine-derived round constants `K[i] = floor(2^32 * |sin(i+1)|)`. -/
def K : List ℕ :=
  [3614090360, 3905402710, 606105819, 3250441966, 4118548399, 1200080426,
   2821735955, 4249261313, 1770035416, 2336552879, 4294925233, 2304563134,
   1804603682, 4254626195, 2792965006, 1236535329, 4129170786, 3225465664,
   643717713, 3921069994, 3593408605, 38016083, 3634488961, 3889429448,
   568446438, 3275163606, 4107603335, 1163531501, 2850285829, 4243563512,
   1735328473, 2368359562, 4294588738, 2272392833, 1839030562, 4259657740,
   2763975236, 1272893353, 4139469664, 3200236656, 681279174, 3936430074,
   3572445317, 76029189, 3654602809, 3873151461, 530742520, 3299628645,
   4096336452, 1126891415, 2878612391, 4237533241, 1700485571, 2399980690,
   4293915773, 2240044497, 1873313359, 4264355552, 2734768916, 1309151649,
   4149444226, 3174756917, 718787259, 3951481745]

/-- The per-round left-rotation amounts. -/
def S : List ℕ :=
  [7, 12, 17, 22, 7, 12, 17, 22, 7, 12, 17, 22, 7, 12, 17, 22,
   5, 9, 14, 20, 5, 9, 14, 20, 5, 9, 14, 20, 5, 9, 14, 20,
   4, 11, 16, 23, 4, 11, 16, 23, 4, 11, 16, 23, 4, 11, 16, 23,
   6, 10, 15, 21, 6, 10, 15, 21, 6, 10, 15, 21, 6, 10, 15, 21]

/-- The round-dependent nonlinear mixing function (F, G, H, I). -/
def mix (i b c d : ℕ) : ℕ :=
  if i < 16 then (b &&& c) ||| (not32 b &&& d)
  else if i < 32 then (d &&& b) ||| (not32 d &&& c)
  else if i < 48 then b ^^^ c ^^^ d
  else c ^^^ (b ||| not32 d)

/-- Which message word round `i` consumes. -/
def msgIdx (i : ℕ) : ℕ :=
  if i < 16 then i
  else if i < 32 then (5 * i + 1) % 16
  else if i < 48 then (3 * i + 5) % 16
  else (7 * i) % 16

/-- The four-word internal state. -/
structure St where
  a : ℕ
  b : ℕ
  c : ℕ
  d : ℕ

/-- One of the 64 rounds over message words `w`. -/
def step (w : List ℕ) (st : St) (i : ℕ) : St :=
  let f := mix i st.b st.c st.d
  let x := (st.a + f + K.getD i 0 + w.getD (msgIdx i) 0) % m32
  ⟨st.d, (st.b + rotl x (S.getD i 0)) % m32, st.b, st.c⟩

/-- Little-endian decoding of a block into 32-bit words. -/
def wordsOf : List ℕ → List ℕ
  | b0 :: b1 :: b2 :: b3 :: rest =>
      (b0 + 256 * b1 + 65536 * b2 + 16777216 * b3) :: wordsOf rest
  | _ => []

/-- Compress one 64-byte block into the state. -/
def processBlock (st : St) (block : List ℕ) : St :=
  let w := wordsOf block
  let e := (List.range 64).foldl (step w) st
  ⟨(st.a + e.a) % m32, (st.b + e.b) % m32, (st.c + e.c) % m32, (st.d + e.d) % m32⟩

/-- Process `fuel` consecutive 64-byte blocks of `bytes`. -/
def processBlocks (st : St) (bytes : List ℕ) : ℕ → St
  | 0 => st
  | n + 1 => processBlocks (processBlock st (bytes.take 64)) (bytes.drop 64) n

/-- The `n` little-endian bytes of `v`. -/
def leBytes (n : ℕ) (v : ℕ) : List ℕ :=
  (List.range n).map (fun i => v / 256 ^ i % 256)

/-- MD5 padding: a `0x80` byte, zeros to 56 mod 64, then the 64-bit
little-endian bit length. -/
def pad (msg : List ℕ) : List ℕ :=
  let len := msg.length
  let z := (119 - len % 64) % 64
  msg ++ [128] ++ List.replicate z 0 ++ leBytes 8 (8 * len % 2 ^ 64)

/-- The 16 digest bytes of a byte message. -/
def md5 (msg : List ℕ) : List ℕ :=
  let p := pad msg
  let st := processBlocks ⟨1732584193, 4023233417, 2562383102, 271733878⟩ p (p.length / 64)
  leBytes 4 st.a ++ leBytes 4 st.b ++ leBytes 4 st.c ++ leBytes 4 st.d

/-- Lower-case hex digit. -/
def hexChar (n : ℕ) : Char :=
  if n < 10 then Char.ofNat (48 + n) else Char.ofNat (87 + n)

/-- `hashlib.md5(...).hexdigest()`. -/
def md5hex (msg : List ℕ) : String :=
  String.mk ((md5 msg).flatMap (fun b => [hexChar (b / 16), hexChar (b % 16)]))

/-- `str.encode()`: the UTF-8 bytes of a string. -/
def strBytes (s : String) : List ℕ := s.toUTF8.data.toList.map (fun b => b.toNat)

end MD5

namespace Abyo

/-- The parameters feeding `Abyo.get_cache_files`, each stored as the
`str(...)` image the code concatenates (Python `str` is injective on the
underlying datetimes and ints, so changing a parameter changes its field
here; an unset optional parameter reads `"None"`).  `years_list` is the
object state holding the years spanned by the collection; the code reads
`years_list[0]` and `years_list[-1]`. -/
structure CacheParams where
  hash_string : String
  date_start : String
  date_end : String
  date_start2 : String
  date_end2 : String
  lat_lon : String
  sensor : String
  morph_op : String
  morph_op_iters : String
  indice_selected : String
  min_occurrence : String
  shapefile_url : String
  cache_path : String
  years_list : List ℤ
deriving DecidableEq

/-- The `prefix` string of `Abyo.get_cache_files`: the version tag and all
query-affecting parameters concatenated with no separators. -/
def keyPrefix (p : CacheParams) : String :=
  p.hash_string ++ (p.date_start ++ p.date_end ++ p.date_start2 ++ p.date_end2) ++
    p.lat_lon ++ p.sensor ++ p.morph_op ++ p.morph_op_iters ++
    p.indice_selected ++ p.min_occurrence ++ p.shapefile_url

/-- The string whose UTF-8 bytes are hashed for the per-year image key:
`prefix + str(year) + 'original'`. -/
def image_key_input (p : CacheParams) (year : ℤ) : String :=
  keyPrefix p ++ (toString year ++ "original")

/-- The string whose UTF-8 bytes are hashed for the full-series key:
`prefix + str(years_list[0]) + str(years_list[-1])` (the `year` argument
does not enter). -/
def series_key_input (p : CacheParams) : String :=
  keyPrefix p ++ (toString (p.years_list.headD 0) ++ toString ((p.years_list.getLast?).getD 0))

/-- `Abyo.get_cache_files`: the two cache file paths
`[cache_path + '/' + md5(image input).hexdigest(), cache_path + '/' + md5(series input).hexdigest()]`. -/
def get_cache_files (p : CacheParams) (year : ℤ) : List String :=
  [p.cache_path ++ "/" ++ MD5.md5hex (MD5.strBytes (image_key_input p year)),
   p.cache_path ++ "/" ++ MD5.md5hex (MD5.strBytes (series_key_input p))]

/-- One raw per-pixel record, a row of `lons_lats_attributes`.  Modelled
from the spec: `gee.extract_latitude_longitude_pixel` is in
`modules/gee.py`, which is not among the sources; per the spec it returns
an "array of (lat, lon, attr1..attrN)", the attribute bands being
requested in `attributes` order. -/
structure Row where
  lat : ℚ
  lon : ℚ
  cloud : ℚ
  label : ℚ
  occurrence : ℚ
  not_occurrence : ℚ
deriving DecidableEq

/-- One row of the time-series dataframe: columns
`['pixel','index','year','lat','lon'] + attributes` plus the derived
`pct_occurrence`, `pct_cloud` and `instants` columns (present from the
initial empty 12-column frame onwards; their values are only meaningful
after the normalization step overwrites them). -/
structure FullRow where
  pixel : ℤ
  index : ℤ
  year : ℤ
  lat : ℚ
  lon : ℚ
  cloud : ℚ
  label : ℚ
  occurrence : ℚ
  not_occurrence : ℚ
  pct_occurrence : ℤ
  pct_cloud : ℤ
  instants : ℚ
deriving DecidableEq

/-- `sort_values(by=['lat','lon'])` comparison. -/
def latLonLe (a b : FullRow) : Prop :=
  a.lat < b.lat ∨ (a.lat = b.lat ∧ a.lon ≤ b.lon)

instance : DecidableRel latLonLe := fun a b =>
  inferInstanceAs (Decidable (a.lat < b.lat ∨ (a.lat = b.lat ∧ a.lon ≤ b.lon)))

/-- `sort_values(by=['year','pixel'])` comparison. -/
def yearPixelLe (a b : FullRow) : Prop :=
  a.year < b.year ∨ (a.year = b.year ∧ a.pixel ≤ b.pixel)

instance : DecidableRel yearPixelLe := fun a b =>
  inferInstanceAs (Decidable (a.year < b.year ∨ (a.year = b.year ∧ a.pixel ≤ b.pixel)))

instance : IsTotal FullRow yearPixelLe :=
  ⟨fun a b => by unfold yearPixelLe; omega⟩

instance : IsTrans FullRow yearPixelLe :=
  ⟨fun a b c => by unfold yearPixelLe; omega⟩

/-- Lines 440-442: building the per-year dataframe from the raw pixel
array.  `extra_attributes = np.array(list(zip([0]*n, [0]*n, [year]*n)))`
provides the `pixel`, `index` and `year` columns; for `n = 0` this array
has shape `(0,)` and `np.concatenate(..., axis=1)` against the
shape-`(0, 6)` pixel array raises, so the build fails exactly when the
row list is empty.  Otherwise the frame is sorted by `['lat','lon']` and
the `pixel` column is reassigned `range(0, len(df))`. -/
def build_dataframe (year : ℤ) (rows : List Row) : Option (List FullRow) :=
  if rows.isEmpty then
    none
  else
    let df := rows.map (fun a =>
      { pixel := 0, index := 0, year := year, lat := a.lat, lon := a.lon,
        cloud := a.cloud, label := a.label, occurrence := a.occurrence,
        not_occurrence := a.not_occurrence,
        pct_occurrence := 0, pct_cloud := 0, instants := 0 : FullRow })
    let sorted := List.insertionSort latLonLe df
    some (sorted.enum.map (fun q => { q.2 with pixel := (q.1 : ℤ) }))

/-- `Abyo.extract_image_pixels`.  The explicit state/oracle arguments:
* `image` — the unused `image` parameter of the method;
* `cache` — the content under this year's image cache key:
  `none` when the file is missing or unreadable, `some none` when it
  deserializes to the `None` sentinel, `some (some rows)` otherwise;
* `collection_yearly` — the external extraction pipeline (clipping the
  yearly composite and walking the tiles of `splitted_geometry`); it is
  a function of the year only and yields `Except.error` if any step
  throws (including a year with zero source images, where
  `extract_image_from_collection_yearly` returns `None` and clipping it
  raises).

Returns the per-year table together with the new content under the image
cache key (`none` = no file on disk). -/
def extract_image_pixels {Image : Type} (_image : Image) (force_cache : Bool)
    (cache : Option (Option (List Row)))
    (collection_yearly : ℤ → Except Unit (List Row)) (year : ℤ) :
    List FullRow × Option (Option (List Row)) :=
  let loaded : Option (List Row) :=
    if force_cache then none
    else
      match cache with
      | some (some rows) => some rows
      | _ => none
  match loaded with
  | some rows =>
      if rows.length = 0 then ([], cache)
      else
        match build_dataframe year rows with
        | some df => (df, cache)
        | none => ([], none)
  | none =>
      match collection_yearly year with
      | Except.ok rows =>
          match build_dataframe year rows with
          | some df => (df, some (some rows))
          | none => ([], none)
      | Except.error _ => ([], none)

/-- `df['index'] = range(0, len(df))` / `np.arange(len(df))`. -/
def reindex_column (rows : List FullRow) : List FullRow :=
  rows.enum.map (fun q => { q.2 with index := (q.1 : ℤ) })

/-- `Abyo.merge_timeseries`: concatenate, reassign the `index` column in
concatenation order, then sort by `['year','pixel']` (the sort keys are
unique in every call the pipeline makes, so the unstable pandas sort is
modelled by a stable one). -/
def merge_timeseries (df_list : List (List FullRow)) : List FullRow :=
  List.insertionSort yearPixelLe (reindex_column df_list.flatten)

/-- The year loop of `process_timeseries_data` (lines 317-323): starting
from the empty frame, each non-empty per-year table (`df_.size > 0`) is
merged into the running time series. -/
def aggregate_years (tables : List (List FullRow)) : List FullRow :=
  tables.foldl (fun acc t => if t.length > 0 then merge_timeseries [acc, t] else acc) []

/-- Lines 339-340: `df = df[df[attribute] != abs(dummy)]` for every
non-cloud attribute (`label`, `occurrence`, `not_occurrence`). -/
def dropDummyRows (rows : List FullRow) : List FullRow :=
  ((rows.filter (fun r => r.label ≠ dummy)).filter
    (fun r => r.occurrence ≠ dummy)).filter (fun r => r.not_occurrence ≠ dummy)

/-- Line 343: `df.loc[df['cloud'] == abs(dummy), 'cloud'] = 0.0`. -/
def zeroCloudSentinel (rows : List FullRow) : List FullRow :=
  rows.map (fun r => if r.cloud = dummy then { r with cloud := 0 } else r)

/-- The `drop_duplicates` subset `['pixel','year','lat','lon'] + attributes`
of a row, bundled for comparison. -/
structure DKey where
  pixel : ℤ
  year : ℤ
  lat : ℚ
  lon : ℚ
  cloud : ℚ
  label : ℚ
  occurrence : ℚ
  not_occurrence : ℚ
deriving DecidableEq

/-- The key columns of a row. -/
def dedupKey (r : FullRow) : DKey :=
  ⟨r.pixel, r.year, r.lat, r.lon, r.cloud, r.label, r.occurrence, r.not_occurrence⟩

/-- Line 346: `df.drop_duplicates(subset=..., keep='last')`: a row is kept
iff no later row has the same key; kept rows stay in order. -/
def drop_duplicates : List FullRow → List FullRow
  | [] => []
  | r :: rest =>
      if rest.any (fun s => decide (dedupKey s = dedupKey r)) then drop_duplicates rest
      else r :: drop_duplicates rest

/-- `astype(int)`: truncation of a float toward zero. -/
def truncQ (q : ℚ) : ℤ := q.num.tdiv (q.den : ℤ)

/-- Lines 349-356: the derived percentage columns.  In `ℚ` a division by
zero yields `0`, which models the pandas pipeline on the reachable
domain: with non-negative counts a zero denominator forces a zero
numerator, the float quotient is `NaN`, and `fillna(0)` maps it to `0`
before `astype(int)`. -/
def addPercentages (rows : List FullRow) : List FullRow :=
  rows.map (fun r =>
    { r with
      pct_occurrence := truncQ (r.occurrence / (r.occurrence + r.not_occurrence) * 100),
      pct_cloud := truncQ (r.cloud / (r.occurrence + r.not_occurrence + r.cloud) * 100),
      instants := r.occurrence + r.not_occurrence + r.cloud })

/-- Lines 335-356 of `process_timeseries_data`: the normalization tail
applied to the merged (or cache-loaded) frame — the `astype` casts on
`pixel`/`year` (identities here, those fields already being integral),
sentinel-row removal, cloud-sentinel zeroing, duplicate removal and the
percentage columns. -/
def normalize_timeseries (rows : List FullRow) : List FullRow :=
  addPercentages (drop_duplicates (zeroCloudSentinel (dropDummyRows rows)))

/-- `Abyo.process_timeseries_data` with its state explicit:
* `force_cache` — `self.force_cache or force_cache`;
* `series_cache` — the content under the series cache key;
* `year_tables` — the tables returned by `extract_image_pixels` for each
  year of `years_list`, in order;
* `has_cache_path` — whether `self.cache_path` is set.

Returns `self.df_timeseries` together with the new content under the
series cache key.  On a cache miss (or forced refresh) the merged frame
is reindexed and stored *before* normalization, exactly as in the code
(`joblib.dump` at line 332 precedes the filtering at lines 338-356). -/
def process_timeseries_data (force_cache : Bool)
    (series_cache : Option (List FullRow)) (year_tables : List (List FullRow))
    (has_cache_path : Bool) : List FullRow × Option (List FullRow) :=
  match (if force_cache then none else series_cache) with
  | some df => (normalize_timeseries df, series_cache)
  | none =>
      let df := reindex_column (aggregate_years year_tables)
      (normalize_timeseries df, if has_cache_path then some df else series_cache)

/-! Concrete sample data used to evaluate the definitions. -/

/-- A concrete parameter set: the defaults of `script.py` run over
1985-2001 with the constructor's default optional arguments. -/
def p0 : CacheParams :=
  { hash_string := "abyo-20210617",
    date_start := "1985-01-01 00:00:00", date_end := "2001-12-31 00:00:00",
    date_start2 := "None", date_end2 := "None",
    lat_lon := "-48.84725671390528,-22.04547298853004,-47.71712046185493,-23.21347463046867",
    sensor := "landsat578", morph_op := "None", morph_op_iters := "1",
    indice_selected := "mndwi,ndvi,fai,sabi,slope", min_occurrence := "4",
    shapefile_url := "None", cache_path := "cache",
    years_list := [1985, 2001] }

/-- A sample raw pixel record. -/
def row0 : Row :=
  { lat := 1, lon := 2, cloud := 0, label := 1, occurrence := 4, not_occurrence := 6 }

/-- A sample dataframe row whose `occurrence` holds the sentinel. -/
def rowA : FullRow :=
  { pixel := 0, index := 0, year := 2000, lat := 0, lon := 0, cloud := 0,
    label := 0, occurrence := 99999, not_occurrence := 1,
    pct_occurrence := 0, pct_cloud := 0, instants := 0 }

/-- A sample well-formed dataframe row. -/
def rowB : FullRow :=
  { pixel := 1, index := 0, year := 2000, lat := 1, lon := 0, cloud := 0,
    label := 0, occurrence := 1, not_occurrence := 1,
    pct_occurrence := 0, pct_cloud := 0, instants := 0 }

/-- A sample dataframe row with `occurrence = 4`, `not_occurrence = 6`,
`cloud = 0` (the spec's percentage scenario). -/
def rowC : FullRow :=
  { pixel := 0, index := 0, year := 2000, lat := 0, lon := 0, cloud := 0,
    label := 1, occurrence := 4, not_occurrence := 6,
    pct_occurrence := 0, pct_cloud := 0, instants := 0 }

end Abyo

namespace Abyo

/-! ### Helper lemmas -/

/-- A non-empty raw pixel array always builds a dataframe. -/
theorem build_dataframe_of_ne_nil (year : ℤ) (rows : List Row) (h : rows ≠ []) :
    ∃ df, build_dataframe year rows = some df := by
  unfold build_dataframe
  rw [if_neg (by simpa using h)]
  exact ⟨_, rfl⟩

/-- **C10**: the `image` parameter of `extract_image_pixels` is never used;
two calls in the same object state with the same cache contents and the
same year agree for any two images, and the result depends on the yearly
collection only through the raster it re-derives for `year`. -/
theorem extract_image_pixels_image_irrelevant {Image : Type} (i1 i2 : Image)
    (force_cache : Bool) (cache : Option (Option (List Row)))
    (collection_yearly : ℤ → Except Unit (List Row)) (year : ℤ) :
    extract_image_pixels i1 force_cache cache collection_yearly year =
      extract_image_pixels i2 force_cache cache collection_yearly year ∧
    ∀ collection_yearly2 : ℤ → Except Unit (List Row),
      collection_yearly year = collection_yearly2 year →
      extract_image_pixels i1 force_cache cache collection_yearly year =
        extract_image_pixels i1 force_cache cache collection_yearly2 year := by
  refine ⟨rfl, ?_⟩
  intro cy2 h
  unfold extract_image_pixels
  rw [h]

/-- Witness for the image-irrelevance theorem at concrete inputs. -/
theorem extract_image_pixels_image_irrelevant_witness :
    extract_image_pixels (0 : ℕ) false none (fun _ => Except.error ()) 2000 =
      extract_image_pixels (1 : ℕ) false none (fun _ => Except.error ()) 2000 :=
  (extract_image_pixels_image_irrelevant 0 1 false none (fun _ => Except.error ()) 2000).1

/-- **C3**: whenever the extraction for a year is attempted (cache forced
off, missing, unreadable or holding the `None` sentinel) and fails, the
year yields the empty table and the image-key cache file is removed; an
empty per-year table contributes nothing to the year loop, so the run
continues. -/
theorem extract_failed_year_empty_and_purged {Image : Type} (image : Image)
    (force_cache : Bool) (cache : Option (Option (List Row)))
    (collection_yearly : ℤ → Except Unit (List Row)) (year : ℤ)
    (hattempt : force_cache = true ∨ cache = none ∨ cache = some none)
    (hfail : collection_yearly year = Except.error ()) :
    extract_image_pixels image force_cache cache collection_yearly year = ([], none) ∧
    ∀ ts1 ts2 : List (List FullRow),
      aggregate_years (ts1 ++ [] :: ts2) = aggregate_years (ts1 ++ ts2) := by
  constructor
  · rcases hattempt with h | h | h <;> subst h <;>
      simp [extract_image_pixels, hfail]
  · intro ts1 ts2
    simp [aggregate_years, List.foldl_append]

/-- Witness for the failed-year theorem at concrete inputs. -/
theorem extract_failed_year_empty_and_purged_witness :
    (true = true ∨ (none : Option (Option (List Row))) = none ∨
      (none : Option (Option (List Row))) = some none) ∧
    ((fun _ : ℤ => (Except.error () : Except Unit (List Row))) 2000 = Except.error ()) ∧
    extract_image_pixels () true none
      (fun _ => (Except.error () : Except Unit (List Row))) 2000 = ([], none) := by
  refine ⟨Or.inl rfl, rfl, ?_⟩
  exact (extract_failed_year_empty_and_purged () true none
    (fun _ => Except.error ()) 2000 (Or.inl rfl) rfl).1

/-- **C4**: a missing, unreadable or `None`-valued cache entry behaves
exactly like a cold cache; recomputation proceeds, a successful non-empty
extraction is stored back under the image key, and a subsequent load hits
the cache and returns the same table without consulting the extractor. -/
theorem cache_miss_selfheal {Image : Type} (image : Image)
    (cache : Option (Option (List Row)))
    (hmiss : cache = none ∨ cache = some none)
    (collection_yearly : ℤ → Except Unit (List Row)) (year : ℤ)
    (rows : List Row) (hrows : rows ≠ [])
    (hok : collection_yearly year = Except.ok rows) :
    extract_image_pixels image false cache collection_yearly year =
      extract_image_pixels image false none collection_yearly year ∧
    (extract_image_pixels image false cache collection_yearly year).2 =
      some (some rows) ∧
    ∀ collection_yearly2 : ℤ → Except Unit (List Row),
      extract_image_pixels image false (some (some rows)) collection_yearly2 year =
        ((extract_image_pixels image false cache collection_yearly year).1,
          some (some rows)) := by
  obtain ⟨df, hdf⟩ := build_dataframe_of_ne_nil year rows hrows
  have hcold : extract_image_pixels image false cache collection_yearly year =
      (df, some (some rows)) := by
    rcases hmiss with h | h <;> subst h <;> simp [extract_image_pixels, hok, hdf]
  have hlen : ¬ rows.length = 0 := by simpa using hrows
  refine ⟨?_, ?_, ?_⟩
  · rw [hcold]; simp [extract_image_pixels, hok, hdf]
  · rw [hcold]
  · intro cy2
    rw [hcold]
    simp [extract_image_pixels, hdf, hlen]

/-- Witness for the cache-miss self-healing theorem at concrete inputs. -/
theorem cache_miss_selfheal_witness :
    ((none : Option (Option (List Row))) = none ∨
      (none : Option (Option (List Row))) = some none) ∧
    ([row0] ≠ ([] : List Row)) ∧
    ((fun _ : ℤ => (Except.ok [row0] : Except Unit (List Row))) 2000 =
      (Except.ok [row0] : Except Unit (List Row))) ∧
    (extract_image_pixels () false none
      (fun _ => (Except.ok [row0] : Except Unit (List Row))) 2000).2 =
      some (some [row0]) := by
  refine ⟨Or.inl rfl, by decide, rfl, ?_⟩
  exact (cache_miss_selfheal () none (Or.inl rfl)
    (fun _ => Except.ok [row0]) 2000 [row0] (by decide) rfl).2.1

/-- **C8**: with the force flag set, the per-year extraction and the
series aggregation ignore the cache contents entirely and recompute, yet
a successful recomputation is still stored under the same key. -/
theorem force_cache_recomputes_and_stores :
    (∀ (Image : Type) (image : Image) (c1 c2 : Option (Option (List Row)))
        (collection_yearly : ℤ → Except Unit (List Row)) (year : ℤ),
      extract_image_pixels image true c1 collection_yearly year =
        extract_image_pixels image true c2 collection_yearly year) ∧
    (∀ (Image : Type) (image : Image) (c : Option (Option (List Row)))
        (collection_yearly : ℤ → Except Unit (List Row)) (year : ℤ)
        (rows : List Row), collection_yearly year = Except.ok rows → rows ≠ [] →
      (extract_image_pixels image true c collection_yearly year).2 =
        some (some rows)) ∧
    (∀ (sc sc' : Option (List FullRow)) (tables : List (List FullRow)),
      process_timeseries_data true sc tables true =
        process_timeseries_data true sc' tables true) ∧
    (∀ (sc : Option (List FullRow)) (tables : List (List FullRow)),
      (process_timeseries_data true sc tables true).2 =
        some (reindex_column (aggregate_years tables))) := by
  refine ⟨?_, ?_, ?_, ?_⟩
  · intro Image image c1 c2 cy year; rfl
  · intro Image image c cy year rows hok hrows
    obtain ⟨df, hdf⟩ := build_dataframe_of_ne_nil year rows hrows
    simp [extract_image_pixels, hok, hdf]
  · intro sc sc' tables; rfl
  · intro sc tables; rfl

/-- Witness for the force-cache theorem at concrete inputs. -/
theorem force_cache_recomputes_and_stores_witness :
    ((fun _ : ℤ => (Except.ok [row0] : Except Unit (List Row))) 2000 =
      (Except.ok [row0] : Except Unit (List Row))) ∧
    ([row0] ≠ ([] : List Row)) ∧
    (extract_image_pixels () true (some none)
      (fun _ => (Except.ok [row0] : Except Unit (List Row))) 2000).2 =
      some (some [row0]) := by
  refine ⟨rfl, by decide, ?_⟩
  exact force_cache_recomputes_and_stores.2.1 Unit () (some none)
    (fun _ => Except.ok [row0]) 2000 [row0] rfl (by decide)

end Abyo

namespace Abyo

/-- Rows of `addPercentages` satisfy the percentage formulas in terms of
their own attribute columns (which the map leaves untouched). -/
theorem pct_formula_of_mem {rows : List FullRow} {r : FullRow}
    (h : r ∈ addPercentages rows) :
    r.pct_occurrence = truncQ (r.occurrence / (r.occurrence + r.not_occurrence) * 100) ∧
    r.pct_cloud = truncQ (r.cloud / (r.occurrence + r.not_occurrence + r.cloud) * 100) ∧
    r.instants = r.occurrence + r.not_occurrence + r.cloud := by
  rcases List.mem_map.mp h with ⟨s, _, rfl⟩
  exact ⟨rfl, rfl, rfl⟩

/-- **C5**: every row of the final time series carries
`pct_occurrence = ⌊occurrence / (occurrence + not_occurrence) × 100⌋`,
`pct_cloud = ⌊cloud / (occurrence + not_occurrence + cloud) × 100⌋`
(truncation toward zero, as `astype(int)`), and
`instants = occurrence + not_occurrence + cloud`, with a zero denominator
yielding zero. -/
theorem timeseries_percentages (rows : List FullRow) (r : FullRow)
    (hr : r ∈ normalize_timeseries rows) :
    (r.pct_occurrence = truncQ (r.occurrence / (r.occurrence + r.not_occurrence) * 100) ∧
     r.pct_cloud = truncQ (r.cloud / (r.occurrence + r.not_occurrence + r.cloud) * 100) ∧
     r.instants = r.occurrence + r.not_occurrence + r.cloud) ∧
    (r.occurrence + r.not_occurrence = 0 → r.pct_occurrence = 0) ∧
    (r.occurrence + r.not_occurrence + r.cloud = 0 → r.pct_cloud = 0) := by
  have h := pct_formula_of_mem hr
  refine ⟨h, ?_, ?_⟩
  · intro h0
    rw [h.1, h0, div_zero, zero_mul]
    with_unfolding_all decide
  · intro h0
    rw [h.2.1, h0, div_zero, zero_mul]
    with_unfolding_all decide

set_option maxRecDepth 40000 in
/-- Witness: the row with `occurrence = 4`, `not_occurrence = 6`,
`cloud = 0` comes out of the pipeline with `pct_occurrence = 40`,
`pct_cloud = 0`, `instants = 10`. -/
theorem timeseries_percentages_witness :
    ({rowC with pct_occurrence := 40, pct_cloud := 0, instants := 10} : FullRow) ∈
      normalize_timeseries [rowC] ∧
    ({rowC with pct_occurrence := 40, pct_cloud := 0, instants := 10} : FullRow).pct_occurrence = 40 ∧
    ({rowC with pct_occurrence := 40, pct_cloud := 0, instants := 10} : FullRow).pct_cloud = 0 ∧
    ({rowC with pct_occurrence := 40, pct_cloud := 0, instants := 10} : FullRow).instants = 10 := by
  have hmem : ({rowC with pct_occurrence := 40, pct_cloud := 0, instants := 10} : FullRow) ∈
      normalize_timeseries [rowC] := by with_unfolding_all decide
  have h := timeseries_percentages [rowC] _ hmem
  exact ⟨hmem, h.1.1.trans (by with_unfolding_all decide),
    h.1.2.1.trans (by with_unfolding_all decide),
    h.1.2.2.trans (by with_unfolding_all decide)⟩

/-! Lemmas for the idempotence of the normalization tail. -/

/-- `drop_duplicates` only keeps rows of its input. -/
theorem mem_of_mem_drop_duplicates {r : FullRow} :
    ∀ {l : List FullRow}, r ∈ drop_duplicates l → r ∈ l
  | [], h => by simp [drop_duplicates] at h
  | a :: t, h => by
      unfold drop_duplicates at h
      by_cases hc : t.any (fun s => decide (dedupKey s = dedupKey a))
      · rw [if_pos hc] at h
        exact List.mem_cons_of_mem a (mem_of_mem_drop_duplicates h)
      · rw [if_neg hc] at h
        rcases List.mem_cons.mp h with h' | h'
        · exact h' ▸ List.mem_cons_self a t
        · exact List.mem_cons_of_mem a (mem_of_mem_drop_duplicates h')

/-- The keys surviving `drop_duplicates` are pairwise distinct. -/
theorem drop_duplicates_pairwise :
    ∀ l : List FullRow,
      (drop_duplicates l).Pairwise (fun a b => dedupKey a ≠ dedupKey b)
  | [] => by simp [drop_duplicates]
  | a :: t => by
      unfold drop_duplicates
      by_cases hc : t.any (fun s => decide (dedupKey s = dedupKey a))
      · rw [if_pos hc]
        exact drop_duplicates_pairwise t
      · rw [if_neg hc]
        refine List.Pairwise.cons ?_ (drop_duplicates_pairwise t)
        intro b hb hkey
        have hb' : b ∈ t := mem_of_mem_drop_duplicates hb
        simp only [List.any_eq_true, decide_eq_true_eq, not_exists, not_and] at hc
        exact hc b hb' hkey.symm

/-- On a list with pairwise distinct keys, `drop_duplicates` is the
identity. -/
theorem drop_duplicates_eq_self :
    ∀ {l : List FullRow},
      l.Pairwise (fun a b => dedupKey a ≠ dedupKey b) → drop_duplicates l = l
  | [], _ => rfl
  | a :: t, h => by
      rcases List.pairwise_cons.mp h with ⟨ha, ht⟩
      unfold drop_duplicates
      have hc : t.any (fun s => decide (dedupKey s = dedupKey a)) = false := by
        rw [List.any_eq_false]
        intro s hs
        simp
        exact fun hk => ha s hs hk.symm
      rw [hc]
      simp [drop_duplicates_eq_self ht]

/-- Membership in the sentinel-row filter forces clean attribute columns. -/
theorem mem_dropDummyRows {r : FullRow} {l : List FullRow}
    (h : r ∈ dropDummyRows l) :
    r ∈ l ∧ r.label ≠ dummy ∧ r.occurrence ≠ dummy ∧ r.not_occurrence ≠ dummy := by
  unfold dropDummyRows at h
  simp only [List.mem_filter, decide_eq_true_eq] at h
  tauto

/-- The sentinel-row filter fixes a list with clean attribute columns. -/
theorem dropDummyRows_eq_self {l : List FullRow}
    (h : ∀ r ∈ l, r.label ≠ dummy ∧ r.occurrence ≠ dummy ∧ r.not_occurrence ≠ dummy) :
    dropDummyRows l = l := by
  unfold dropDummyRows
  have h1 : l.filter (fun r => r.label ≠ dummy) = l :=
    List.filter_eq_self.mpr (fun a ha => by simpa using (h a ha).1)
  rw [h1]
  have h2 : l.filter (fun r => r.occurrence ≠ dummy) = l :=
    List.filter_eq_self.mpr (fun a ha => by simpa using (h a ha).2.1)
  rw [h2]
  exact List.filter_eq_self.mpr (fun a ha => by simpa using (h a ha).2.2)

/-- Every row of `zeroCloudSentinel` has a non-sentinel cloud value and
keeps the occurrence-class columns of some input row. -/
theorem mem_zeroCloudSentinel {r : FullRow} {l : List FullRow}
    (h : r ∈ zeroCloudSentinel l) :
    r.cloud ≠ dummy ∧ ∃ t ∈ l, r.label = t.label ∧ r.occurrence = t.occurrence ∧
      r.not_occurrence = t.not_occurrence := by
  rcases List.mem_map.mp h with ⟨t, ht, rfl⟩
  by_cases hc : t.cloud = dummy
  · rw [if_pos hc]
    refine ⟨by norm_num [dummy], t, ht, rfl, rfl, rfl⟩
  · rw [if_neg hc]
    exact ⟨hc, t, ht, rfl, rfl, rfl⟩

/-- Zeroing the cloud sentinel fixes a list with no sentinel cloud. -/
theorem zeroCloudSentinel_eq_self {l : List FullRow}
    (h : ∀ r ∈ l, r.cloud ≠ dummy) : zeroCloudSentinel l = l := by
  induction l with
  | nil => rfl
  | cons a t ih =>
      have ha := h a (List.mem_cons_self a t)
      have ht := fun r hr => h r (List.mem_cons_of_mem a hr)
      simp only [zeroCloudSentinel, List.map_cons, if_neg ha]
      exact congrArg (a :: ·) (ih ht)

/-- `addPercentages` is idempotent: it recomputes the percentage columns
from attribute columns it does not modify. -/
theorem addPercentages_idem (l : List FullRow) :
    addPercentages (addPercentages l) = addPercentages l := by
  unfold addPercentages
  rw [List.map_map]
  exact List.map_congr_left (fun a _ => by cases a; rfl)

/-- **C9**: the normalization tail (sentinel-row drop, cloud-sentinel
zeroing, duplicate removal, percentage recomputation) is idempotent: a
second application changes nothing. -/
theorem normalize_timeseries_idem (rows : List FullRow) :
    normalize_timeseries (normalize_timeseries rows) = normalize_timeseries rows := by
  have key_pct : ∀ s : FullRow,
      dedupKey { s with
        pct_occurrence := truncQ (s.occurrence / (s.occurrence + s.not_occurrence) * 100),
        pct_cloud := truncQ (s.cloud / (s.occurrence + s.not_occurrence + s.cloud) * 100),
        instants := s.occurrence + s.not_occurrence + s.cloud } = dedupKey s :=
    fun s => rfl
  set y3 := drop_duplicates (zeroCloudSentinel (dropDummyRows rows)) with hy3
  have hfields : ∀ r ∈ addPercentages y3,
      r.label ≠ dummy ∧ r.occurrence ≠ dummy ∧ r.not_occurrence ≠ dummy ∧
        r.cloud ≠ dummy := by
    intro r hr
    rcases List.mem_map.mp hr with ⟨s, hs, rfl⟩
    have hs2 : s ∈ zeroCloudSentinel (dropDummyRows rows) :=
      mem_of_mem_drop_duplicates (hy3 ▸ hs)
    rcases mem_zeroCloudSentinel hs2 with ⟨hcloud, t, ht, hl, ho, hn⟩
    rcases mem_dropDummyRows ht with ⟨_, htl, hto, htn⟩
    exact ⟨by simpa [hl] using htl, by simpa [ho] using hto,
      by simpa [hn] using htn, hcloud⟩
  have h1 : dropDummyRows (addPercentages y3) = addPercentages y3 :=
    dropDummyRows_eq_self (fun r hr => ⟨(hfields r hr).1, (hfields r hr).2.1,
      (hfields r hr).2.2.1⟩)
  have h2 : zeroCloudSentinel (addPercentages y3) = addPercentages y3 :=
    zeroCloudSentinel_eq_self (fun r hr => (hfields r hr).2.2.2)
  have h3 : drop_duplicates (addPercentages y3) = addPercentages y3 := by
    refine drop_duplicates_eq_self ?_
    have hp : y3.Pairwise (fun a b => dedupKey a ≠ dedupKey b) := by
      rw [hy3]; exact drop_duplicates_pairwise _
    unfold addPercentages
    exact List.Pairwise.map _ (fun a b hab => by
      rw [key_pct a, key_pct b]; exact hab) hp
  show addPercentages (drop_duplicates (zeroCloudSentinel (dropDummyRows
    (addPercentages y3)))) = addPercentages y3
  rw [h1, h2, h3, addPercentages_idem]

end Abyo

namespace Abyo

/-- `drop_duplicates` returns a sublist of its input. -/
theorem drop_duplicates_sublist : ∀ l : List FullRow, List.Sublist (drop_duplicates l) l
  | [] => by simp [drop_duplicates]
  | a :: t => by
      unfold drop_duplicates
      by_cases hc : t.any (fun s => decide (dedupKey s = dedupKey a))
      · rw [if_pos hc]
        exact (drop_duplicates_sublist t).cons a
      · rw [if_neg hc]
        exact (drop_duplicates_sublist t).cons₂ a

/-- The sentinel-row filter returns a sublist of its input. -/
theorem dropDummyRows_sublist (l : List FullRow) : List.Sublist (dropDummyRows l) l := by
  unfold dropDummyRows
  exact (List.filter_sublist _).trans ((List.filter_sublist _).trans
    (List.filter_sublist _))

/-- Any relation depending only on the `year`, `pixel` and `index` columns
survives the normalization tail. -/
theorem normalize_timeseries_pairwise {R : FullRow → FullRow → Prop}
    (hR : ∀ a b a' b' : FullRow, a.year = a'.year → a.pixel = a'.pixel →
      a.index = a'.index → b.year = b'.year → b.pixel = b'.pixel →
      b.index = b'.index → R a b → R a' b')
    {l : List FullRow} (h : l.Pairwise R) :
    (normalize_timeseries l).Pairwise R := by
  have h1 : (dropDummyRows l).Pairwise R := h.sublist (dropDummyRows_sublist l)
  have h2 : (zeroCloudSentinel (dropDummyRows l)).Pairwise R := by
    unfold zeroCloudSentinel
    rw [List.pairwise_map]
    refine h1.imp ?_
    intro a b hab
    refine hR a b _ _ ?_ ?_ ?_ ?_ ?_ ?_ hab <;> split <;> rfl
  have h3 : (drop_duplicates (zeroCloudSentinel (dropDummyRows l))).Pairwise R :=
    h2.sublist (drop_duplicates_sublist _)
  unfold normalize_timeseries addPercentages
  rw [List.pairwise_map]
  refine h3.imp ?_
  intro a b hab
  exact hR a b _ _ rfl rfl rfl rfl rfl rfl hab

/-- Rows of the normalization tail keep the `index` of an input row. -/
theorem mem_normalize_timeseries_index {r : FullRow} {l : List FullRow}
    (h : r ∈ normalize_timeseries l) : ∃ s ∈ l, r.index = s.index := by
  unfold normalize_timeseries addPercentages at h
  rcases List.mem_map.mp h with ⟨u, hu, rfl⟩
  have hu2 : u ∈ zeroCloudSentinel (dropDummyRows l) :=
    mem_of_mem_drop_duplicates hu
  unfold zeroCloudSentinel at hu2
  rcases List.mem_map.mp hu2 with ⟨t, ht, rfl⟩
  refine ⟨t, (mem_dropDummyRows ht).1, ?_⟩
  show (if t.cloud = dummy then { t with cloud := 0 } else t).index = t.index
  split <;> rfl

/-- The rows of `reindex_column l` carry their position as `index`. -/
theorem mem_reindex_column_index {r : FullRow} {l : List FullRow}
    (h : r ∈ reindex_column l) : 0 ≤ r.index ∧ r.index < (l.length : ℤ) := by
  unfold reindex_column at h
  rcases List.mem_map.mp h with ⟨p, hp, rfl⟩
  have hlt : p.1 < l.length := by
    have h' := List.mem_enum_iff_getElem?.mp hp
    exact (List.getElem?_eq_some.mp h').1
  constructor
  · exact Int.ofNat_nonneg p.1
  · show (p.1 : ℤ) < (l.length : ℤ)
    exact_mod_cast hlt

/-- The `index` column of `reindex_column` is `0 .. length-1` in order. -/
theorem map_index_reindex_column (l : List FullRow) :
    (reindex_column l).map FullRow.index = (List.range l.length).map Int.ofNat := by
  unfold reindex_column
  rw [List.map_map]
  have hid : (FullRow.index ∘ fun q : ℕ × FullRow => { q.2 with index := (q.1 : ℤ) }) =
      (Int.ofNat ∘ Prod.fst) := rfl
  rw [hid, ← List.map_map, List.enum_eq_enumFrom, List.enumFrom_map_fst,
    ← List.range_eq_range']

/-- `addPercentages` leaves the `index` column unchanged. -/
theorem map_index_addPercentages (l : List FullRow) :
    (addPercentages l).map FullRow.index = l.map FullRow.index := by
  unfold addPercentages
  rw [List.map_map]
  exact List.map_congr_left (fun a _ => rfl)

/-- `zeroCloudSentinel` leaves the `index` column unchanged. -/
theorem map_index_zeroCloudSentinel (l : List FullRow) :
    (zeroCloudSentinel l).map FullRow.index = l.map FullRow.index := by
  unfold zeroCloudSentinel
  rw [List.map_map]
  refine List.map_congr_left (fun a _ => ?_)
  show (if a.cloud = dummy then { a with cloud := 0 } else a).index = a.index
  split <;> rfl

/-- The running time series stays sorted by `(year, pixel)` through the
year loop. -/
theorem aggregate_years_pairwise (tables : List (List FullRow)) :
    (aggregate_years tables).Pairwise yearPixelLe := by
  unfold aggregate_years
  suffices h : ∀ (ts : List (List FullRow)) (acc : List FullRow),
      acc.Pairwise yearPixelLe →
      (ts.foldl (fun acc t => if t.length > 0 then merge_timeseries [acc, t] else acc)
        acc).Pairwise yearPixelLe by
    exact h tables [] List.Pairwise.nil
  intro ts
  induction ts with
  | nil => exact fun acc h => h
  | cons t ts ih =>
      intro acc hacc
      simp only [List.foldl_cons]
      by_cases hc : t.length > 0
      · rw [if_pos hc]
        exact ih _ (List.sorted_insertionSort yearPixelLe _)
      · rw [if_neg hc]
        exact ih _ hacc

/-- Pairs enumerated from a pairwise-related list stay related on their
second components. -/
theorem pairwise_enumFrom_snd {α : Type} {R : α → α → Prop} :
    ∀ {l : List α} (n : ℕ), l.Pairwise R →
      (l.enumFrom n).Pairwise (fun p q => R p.2 q.2)
  | [], _, _ => by simp
  | a :: t, n, h => by
      rcases List.pairwise_cons.mp h with ⟨ha, ht⟩
      rw [List.enumFrom_cons]
      refine List.Pairwise.cons ?_ (pairwise_enumFrom_snd (n + 1) ht)
      intro q hq
      have hq2 : q.2 ∈ t := by
        have := List.mem_map_of_mem Prod.snd hq
        rwa [List.enumFrom_map_snd] at this
      exact ha q.2 hq2

/-- `reindex_column` preserves any relation untouched by the `index`
column. -/
theorem reindex_column_pairwise {R : FullRow → FullRow → Prop}
    (hR : ∀ (a b : FullRow) (i j : ℤ), R a b →
      R { a with index := i } { b with index := j })
    {l : List FullRow} (h : l.Pairwise R) : (reindex_column l).Pairwise R := by
  unfold reindex_column
  rw [List.pairwise_map, List.enum_eq_enumFrom]
  exact (pairwise_enumFrom_snd 0 h).imp (fun hpq => hR _ _ _ _ hpq)

/-- The `index` column assigned by `reindex_column` is strictly
increasing along the list. -/
theorem reindex_column_index_strict (l : List FullRow) :
    (reindex_column l).Pairwise (fun a b => a.index < b.index) := by
  rw [← List.pairwise_map (f := FullRow.index) (R := ((· < ·) : ℤ → ℤ → Prop)),
    map_index_reindex_column, List.pairwise_map]
  exact (List.pairwise_lt_range _).imp (fun h => Int.ofNat_lt.mpr h)

end Abyo

namespace Abyo

/-- **C6 (amended)**: the result of a cold aggregation run is sorted by
`(year, pixel)`, its `index` column is strictly increasing with values in
`[0, M)` where `M` is the pre-normalization row count, and the `index`
column equals exactly `0..N-1` whenever the normalization tail drops no
row (no sentinel rows and no duplicate keys). -/
theorem timeseries_sorted_and_index (tables : List (List FullRow)) :
    ((process_timeseries_data false none tables true).1).Pairwise yearPixelLe ∧
    ((process_timeseries_data false none tables true).1).Pairwise
      (fun a b => a.index < b.index) ∧
    (∀ r ∈ (process_timeseries_data false none tables true).1,
      0 ≤ r.index ∧ r.index < ((aggregate_years tables).length : ℤ)) ∧
    (dropDummyRows (reindex_column (aggregate_years tables)) =
        reindex_column (aggregate_years tables) →
      drop_duplicates (zeroCloudSentinel (reindex_column (aggregate_years tables))) =
        zeroCloudSentinel (reindex_column (aggregate_years tables)) →
      ((process_timeseries_data false none tables true).1).map FullRow.index =
        (List.range ((process_timeseries_data false none tables true).1).length).map
          Int.ofNat) := by
  have hout : (process_timeseries_data false none tables true).1 =
      normalize_timeseries (reindex_column (aggregate_years tables)) := rfl
  refine ⟨?_, ?_, ?_, ?_⟩
  · rw [hout]
    refine normalize_timeseries_pairwise ?_ ?_
    · intro a b a' b' hy hp _ hy2 hp2 _ hab
      unfold yearPixelLe
      rw [← hy, ← hp, ← hy2, ← hp2]
      exact hab
    · exact reindex_column_pairwise (fun a b i j hab => hab)
        (aggregate_years_pairwise tables)
  · rw [hout]
    refine normalize_timeseries_pairwise ?_ (reindex_column_index_strict _)
    intro a b a' b' _ _ hi _ _ hj hab
    rw [← hi, ← hj]
    exact hab
  · intro r hr
    rw [hout] at hr
    rcases mem_normalize_timeseries_index hr with ⟨s, hs, hidx⟩
    rw [hidx]
    exact mem_reindex_column_index hs
  · intro h1 h2
    rw [hout]
    unfold normalize_timeseries
    rw [h1, h2, map_index_addPercentages, map_index_zeroCloudSentinel,
      map_index_reindex_column]
    congr 1
    simp [addPercentages, zeroCloudSentinel, reindex_column]

section

set_option allowUnsafeReducibility true

attribute [local semireducible] Rat.add Rat.mul Rat.sub Rat.neg Rat.div Rat.inv

set_option maxRecDepth 8000 in
/-- **C6 (counterexample)**: a single non-empty yearly table whose first
row carries the `occurrence` sentinel yields a final time series whose
`index` column is `[1]`, not the claimed `0..N-1 = [0]`. -/
theorem timeseries_index_counterexample :
    ((process_timeseries_data false none [[rowA, rowB]] true).1).map FullRow.index =
      [1] ∧
    ((process_timeseries_data false none [[rowA, rowB]] true).1).map FullRow.index ≠
      (List.range
        ((process_timeseries_data false none [[rowA, rowB]] true).1).length).map
        Int.ofNat := by
  decide

set_option maxRecDepth 8000 in
/-- Witness for the sorted-and-index theorem: with a clean single-row
table the hypotheses hold and the `index` column is exactly `0..N-1`. -/
theorem timeseries_sorted_and_index_witness :
    (dropDummyRows (reindex_column (aggregate_years [[rowB]])) =
        reindex_column (aggregate_years [[rowB]])) ∧
    (drop_duplicates (zeroCloudSentinel (reindex_column (aggregate_years [[rowB]]))) =
        zeroCloudSentinel (reindex_column (aggregate_years [[rowB]]))) ∧
    ((process_timeseries_data false none [[rowB]] true).1).map FullRow.index =
      (List.range ((process_timeseries_data false none [[rowB]] true).1).length).map
        Int.ofNat := by
  have h1 : dropDummyRows (reindex_column (aggregate_years [[rowB]])) =
      reindex_column (aggregate_years [[rowB]]) := by decide
  have h2 : drop_duplicates (zeroCloudSentinel (reindex_column (aggregate_years [[rowB]]))) =
      zeroCloudSentinel (reindex_column (aggregate_years [[rowB]])) := by
    decide
  exact ⟨h1, h2, (timeseries_sorted_and_index [[rowB]]).2.2.2 h1 h2⟩

end

end Abyo

namespace Abyo

/-- Evaluating the `np.linspace` break-point array. -/
theorem linspace_getD (a b : ℚ) (n i : ℕ) (h : i < n + 1) :
    (linspace a b (n + 1)).getD i 0 = gridPoint a b n i := by
  unfold linspace gridPoint
  rw [List.getD_eq_getElem?_getD, List.getElem?_map, List.getElem?_range h]
  simp only [Option.map_some', Option.getD_some]
  push_cast
  ring_nf

/-- Congruence for `flatMap`. -/
theorem flatMap_congr {α β : Type} {f g : α → List β} :
    ∀ {l : List α}, (∀ a ∈ l, f a = g a) → l.flatMap f = l.flatMap g
  | [], _ => rfl
  | a :: t, h => by
      simp only [List.flatMap_cons]
      rw [h a (List.mem_cons_self a t),
        flatMap_congr (fun x hx => h x (List.mem_cons_of_mem a hx))]

/-- On the splitting branch, `split_geometry` is the row-major grid of
`gridPoint` tiles. -/
theorem split_geometry_grid (P B : ℕ) (r : Region) (s : SampleBounds)
    (h : P * (attributes.length + 2) > B) :
    split_geometry P B r s =
      (List.range (ceilDiv P B)).flatMap (fun i =>
        (List.range (ceilDiv P B)).map (fun j =>
          ({ lat1 := gridPoint s.lonMin s.lonMax (ceilDiv P B) i,
             lon1 := gridPoint s.latMin s.latMax (ceilDiv P B) j,
             lat2 := gridPoint s.lonMin s.lonMax (ceilDiv P B) (i + 1),
             lon2 := gridPoint s.latMin s.latMax (ceilDiv P B) (j + 1) } : Region))) := by
  unfold split_geometry
  rw [if_pos h]
  refine flatMap_congr ?_
  intro i hi
  have hi' : i < ceilDiv P B := List.mem_range.mp hi
  refine List.map_congr_left ?_
  intro j hj
  have hj' : j < ceilDiv P B := List.mem_range.mp hj
  rw [linspace_getD _ _ _ _ (by omega), linspace_getD _ _ _ _ (by omega),
    linspace_getD _ _ _ _ (by omega), linspace_getD _ _ _ _ (by omega)]

/-- Indexing a `flatMap` whose pieces all have length `t`. -/
theorem getElem?_flatMap_const_length {α β : Type} {f : α → List β} {t : ℕ}
    (hf : ∀ a, (f a).length = t) :
    ∀ (l : List α) (i j : ℕ) (hi : i < l.length), j < t →
      (l.flatMap f)[i * t + j]? = (f (l.get ⟨i, hi⟩))[j]?
  | a :: l, 0, j, _, hj => by
      simp only [List.flatMap_cons, Nat.zero_mul, Nat.zero_add]
      rw [List.getElem?_append_left (by rw [hf a]; exact hj)]
      rfl
  | a :: l, i + 1, j, hi, hj => by
      simp only [List.flatMap_cons]
      rw [List.getElem?_append_right (by rw [hf a]; nlinarith)]
      have harith : (i + 1) * t + j - (f a).length = i * t + j := by
        rw [hf a]; ring_nf; omega
      rw [harith]
      exact getElem?_flatMap_const_length hf l i j (by simpa using hi) hj

/-- The tile emitted at row-major position `i * tiles + j`. -/
theorem grid_getElem? {g : ℕ → ℕ → Region} {n i j : ℕ} (hi : i < n) (hj : j < n) :
    ((List.range n).flatMap (fun i => (List.range n).map (g i)))[i * n + j]? =
      some (g i j) := by
  rw [getElem?_flatMap_const_length (fun a => by simp) (List.range n) i j
    (by simpa using hi) hj]
  rw [List.get_eq_getElem, List.getElem_range, List.getElem?_map,
    List.getElem?_range hj]
  rfl

/-- The grid emits `n * n` tiles. -/
theorem grid_length {g : ℕ → ℕ → Region} {n : ℕ} :
    ((List.range n).flatMap (fun i => (List.range n).map (g i))).length = n * n := by
  rw [List.length_flatMap]
  have : ((List.range n).map (fun i => ((List.range n).map (g i)).length)) =
      List.replicate n n := by
    rw [List.eq_replicate_iff]
    constructor
    · simp
    · intro b hb
      rcases List.mem_map.mp hb with ⟨i, _, rfl⟩
      simp
  simp only [Function.comp_def]
  rw [this, List.sum_replicate, smul_eq_mul]

/-- Monotonicity of the evenly spaced break points. -/
theorem gridPoint_mono (a b : ℚ) (n : ℕ) (hab : a ≤ b) {i j : ℕ} (hij : i ≤ j) :
    gridPoint a b n i ≤ gridPoint a b n j := by
  unfold gridPoint
  have hc : (0 : ℚ) ≤ (b - a) / (n : ℚ) :=
    div_nonneg (by linarith) (by positivity)
  have hij' : (i : ℚ) ≤ (j : ℚ) := by exact_mod_cast hij
  rw [mul_div_assoc, mul_div_assoc]
  exact add_le_add_left (mul_le_mul_of_nonneg_right hij' hc) a

/-- The first break point is the axis start. -/
theorem gridPoint_zero (a b : ℚ) (n : ℕ) : gridPoint a b n 0 = a := by
  unfold gridPoint
  simp

/-- The last break point is the axis end. -/
theorem gridPoint_last (a b : ℚ) {n : ℕ} (hn : n ≠ 0) : gridPoint a b n n = b := by
  unfold gridPoint
  have h : (n : ℚ) ≠ 0 := Nat.cast_ne_zero.mpr hn
  field_simp

/-- Any point below the `n`-th value of a sequence and above its first
value lies between two consecutive values. -/
theorem exists_segment (f : ℕ → ℚ) (x : ℚ) :
    ∀ n : ℕ, 0 < n → f 0 ≤ x → x ≤ f n →
      ∃ i, i < n ∧ f i ≤ x ∧ x ≤ f (i + 1)
  | 0, h, _, _ => absurd h (by omega)
  | n + 1, _, h0, h1 => by
      by_cases hn : n = 0
      · subst hn
        exact ⟨0, Nat.zero_lt_one, h0, h1⟩
      · by_cases hx : x ≤ f n
        · rcases exists_segment f x n (Nat.pos_of_ne_zero hn) h0 hx with ⟨i, hi, h2, h3⟩
          exact ⟨i, by omega, h2, h3⟩
        · exact ⟨n, by omega, le_of_lt (lt_of_not_le hx), h1⟩

/-- The number of tiles on each axis is positive on the splitting branch. -/
theorem ceilDiv_pos {P B : ℕ} (hB : 0 < B) (hP : 0 < P) : 0 < ceilDiv P B := by
  unfold ceilDiv
  have h2 := Nat.one_le_div_iff hB (a := P + B - 1)
  omega

end Abyo

namespace Abyo

/-- **C1 (amended)**: `split_geometry` returns the full region as the only
tile when `sample_total_pixel * (len(attributes) + 2) ≤ max_tile_pixels`;
otherwise it emits `ceil(P/B) × ceil(P/B)` rectangular tiles in row-major
order (outer index on the first axis) cut along a
`(ceil(P/B)+1) × (ceil(P/B)+1)` grid of evenly spaced break points over
the sampled corner coordinates — the tile count uses `ceil(P/B)`, not
`ceil(P·A/B)`, so the spec's 1,000,000-pixel scenario yields one tile. -/
theorem split_geometry_spec (P B : ℕ) (r : Region) (s : SampleBounds) :
    (P * (attributes.length + 2) ≤ B → split_geometry P B r s = [r]) ∧
    (P * (attributes.length + 2) > B →
      (split_geometry P B r s).length = ceilDiv P B * ceilDiv P B ∧
      ∀ i j : ℕ, i < ceilDiv P B → j < ceilDiv P B →
        (split_geometry P B r s)[i * ceilDiv P B + j]? =
          some { lat1 := gridPoint s.lonMin s.lonMax (ceilDiv P B) i,
                 lon1 := gridPoint s.latMin s.latMax (ceilDiv P B) j,
                 lat2 := gridPoint s.lonMin s.lonMax (ceilDiv P B) (i + 1),
                 lon2 := gridPoint s.latMin s.latMax (ceilDiv P B) (j + 1) }) := by
  constructor
  · intro h
    unfold split_geometry
    rw [if_neg (by omega)]
  · intro h
    rw [split_geometry_grid P B r s h]
    exact ⟨grid_length, fun i j hi hj => grid_getElem? hi hj⟩

/-- **C1 (counterexample)**: for the spec's scenario (1,000,000 estimated
pixels, budget 2,000,000) the code splits but produces
`ceil(1000000/2000000)² = 1` tile, not the claimed `3 × 3 = 9`. -/
theorem split_geometry_scenario_counterexample :
    (split_geometry 1000000 2000000 ⟨0, 0, 10, 10⟩ ⟨0, 0, 10, 10⟩).length = 1 ∧
    (split_geometry 1000000 2000000 ⟨0, 0, 10, 10⟩ ⟨0, 0, 10, 10⟩).length ≠ 9 := by
  constructor <;> decide

/-- Witness for the amended tiling theorem on both branches. -/
theorem split_geometry_spec_witness :
    (1 * (attributes.length + 2) ≤ 100 ∧
      split_geometry 1 100 ⟨0, 0, 10, 10⟩ ⟨0, 0, 10, 10⟩ =
        [⟨0, 0, 10, 10⟩]) ∧
    (3 * (attributes.length + 2) > 1 ∧
      (split_geometry 3 1 ⟨0, 0, 10, 10⟩ ⟨0, 0, 10, 10⟩).length = 9) := by
  refine ⟨⟨by decide, (split_geometry_spec 1 100 _ _).1 (by decide)⟩,
    ⟨by decide, ?_⟩⟩
  have h := ((split_geometry_spec 3 1 ⟨0, 0, 10, 10⟩ ⟨0, 0, 10, 10⟩).2
    (by decide)).1
  rw [h]
  decide

/-- **C7**: on the splitting branch the emitted tiles exactly cover the
sampled rectangle: every point of the rectangle lies in some emitted
tile, every emitted tile lies inside the rectangle with ordered corners,
the tile at row-major position `i * tiles + j` is the grid cell
`[p i, p (i+1)] × [q j, q (j+1)]` of break points, and two distinct grid
cells have disjoint interiors (they share at most boundary lines). -/
theorem split_geometry_covers (P B : ℕ) (r : Region) (s : SampleBounds)
    (hB : 0 < B) (hsplit : P * (attributes.length + 2) > B)
    (hlon : s.lonMin ≤ s.lonMax) (hlat : s.latMin ≤ s.latMax) :
    (∀ x y : ℚ, s.lonMin ≤ x → x ≤ s.lonMax → s.latMin ≤ y → y ≤ s.latMax →
      ∃ g ∈ split_geometry P B r s,
        g.lat1 ≤ x ∧ x ≤ g.lat2 ∧ g.lon1 ≤ y ∧ y ≤ g.lon2) ∧
    (∀ g ∈ split_geometry P B r s,
      s.lonMin ≤ g.lat1 ∧ g.lat1 ≤ g.lat2 ∧ g.lat2 ≤ s.lonMax ∧
      s.latMin ≤ g.lon1 ∧ g.lon1 ≤ g.lon2 ∧ g.lon2 ≤ s.latMax) ∧
    (∀ i j : ℕ, i < ceilDiv P B → j < ceilDiv P B →
      (split_geometry P B r s)[i * ceilDiv P B + j]? =
        some { lat1 := gridPoint s.lonMin s.lonMax (ceilDiv P B) i,
               lon1 := gridPoint s.latMin s.latMax (ceilDiv P B) j,
               lat2 := gridPoint s.lonMin s.lonMax (ceilDiv P B) (i + 1),
               lon2 := gridPoint s.latMin s.latMax (ceilDiv P B) (j + 1) }) ∧
    (∀ i j i' j' : ℕ, i < ceilDiv P B → j < ceilDiv P B → i' < ceilDiv P B →
        j' < ceilDiv P B → (i, j) ≠ (i', j') → ∀ x y : ℚ,
      gridPoint s.lonMin s.lonMax (ceilDiv P B) i < x →
      x < gridPoint s.lonMin s.lonMax (ceilDiv P B) (i + 1) →
      gridPoint s.latMin s.latMax (ceilDiv P B) j < y →
      y < gridPoint s.latMin s.latMax (ceilDiv P B) (j + 1) →
      ¬ (gridPoint s.lonMin s.lonMax (ceilDiv P B) i' < x ∧
         x < gridPoint s.lonMin s.lonMax (ceilDiv P B) (i' + 1) ∧
         gridPoint s.latMin s.latMax (ceilDiv P B) j' < y ∧
         y < gridPoint s.latMin s.latMax (ceilDiv P B) (j' + 1))) := by
  have h6 : attributes.length + 2 = 6 := rfl
  have hP : 0 < P := by rw [h6] at hsplit; omega
  have ht : 0 < ceilDiv P B := ceilDiv_pos hB hP
  have htne : ceilDiv P B ≠ 0 := ht.ne'
  refine ⟨?_, ?_, ?_, ?_⟩
  · intro x y hx1 hx2 hy1 hy2
    obtain ⟨i, hi, hxi1, hxi2⟩ :=
      exists_segment (gridPoint s.lonMin s.lonMax (ceilDiv P B)) x (ceilDiv P B) ht
        (by rw [gridPoint_zero]; exact hx1)
        (by rw [gridPoint_last _ _ htne]; exact hx2)
    obtain ⟨j, hj, hyj1, hyj2⟩ :=
      exists_segment (gridPoint s.latMin s.latMax (ceilDiv P B)) y (ceilDiv P B) ht
        (by rw [gridPoint_zero]; exact hy1)
        (by rw [gridPoint_last _ _ htne]; exact hy2)
    refine ⟨{ lat1 := gridPoint s.lonMin s.lonMax (ceilDiv P B) i,
              lon1 := gridPoint s.latMin s.latMax (ceilDiv P B) j,
              lat2 := gridPoint s.lonMin s.lonMax (ceilDiv P B) (i + 1),
              lon2 := gridPoint s.latMin s.latMax (ceilDiv P B) (j + 1) },
      ?_, hxi1, hxi2, hyj1, hyj2⟩
    rw [split_geometry_grid P B r s hsplit]
    exact List.mem_flatMap.mpr ⟨i, List.mem_range.mpr hi,
      List.mem_map.mpr ⟨j, List.mem_range.mpr hj, rfl⟩⟩
  · intro g hg
    rw [split_geometry_grid P B r s hsplit] at hg
    rcases List.mem_flatMap.mp hg with ⟨i, hi, hgi⟩
    rcases List.mem_map.mp hgi with ⟨j, hj, rfl⟩
    have hi' := List.mem_range.mp hi
    have hj' := List.mem_range.mp hj
    refine ⟨?_, ?_, ?_, ?_, ?_, ?_⟩
    · have h := gridPoint_mono s.lonMin s.lonMax (ceilDiv P B) hlon (Nat.zero_le i)
      rwa [gridPoint_zero] at h
    · exact gridPoint_mono s.lonMin s.lonMax (ceilDiv P B) hlon (Nat.le_succ i)
    · have h := gridPoint_mono s.lonMin s.lonMax (ceilDiv P B) hlon
        (show i + 1 ≤ ceilDiv P B from hi')
      rwa [gridPoint_last _ _ htne] at h
    · have h := gridPoint_mono s.latMin s.latMax (ceilDiv P B) hlat (Nat.zero_le j)
      rwa [gridPoint_zero] at h
    · exact gridPoint_mono s.latMin s.latMax (ceilDiv P B) hlat (Nat.le_succ j)
    · have h := gridPoint_mono s.latMin s.latMax (ceilDiv P B) hlat
        (show j + 1 ≤ ceilDiv P B from hj')
      rwa [gridPoint_last _ _ htne] at h
  · intro i j hi hj
    rw [split_geometry_grid P B r s hsplit]
    exact grid_getElem? hi hj
  · intro i j i' j' hi hj hi' hj' hne x y h1 h2 h3 h4
    rintro ⟨h5, h6', h7, h8⟩
    have hcases : i ≠ i' ∨ j ≠ j' := by
      by_contra hc
      push_neg at hc
      exact hne (by rw [hc.1, hc.2])
    rcases hcases with hii | hjj
    · rcases Nat.lt_or_ge i i' with hlt | hge
      · have hle := gridPoint_mono s.lonMin s.lonMax (ceilDiv P B) hlon
          (show i + 1 ≤ i' from hlt)
        linarith
      · have hlt' : i' < i := by omega
        have hle := gridPoint_mono s.lonMin s.lonMax (ceilDiv P B) hlon
          (show i' + 1 ≤ i from hlt')
        linarith
    · rcases Nat.lt_or_ge j j' with hlt | hge
      · have hle := gridPoint_mono s.latMin s.latMax (ceilDiv P B) hlat
          (show j + 1 ≤ j' from hlt)
        linarith
      · have hlt' : j' < j := by omega
        have hle := gridPoint_mono s.latMin s.latMax (ceilDiv P B) hlat
          (show j' + 1 ≤ j from hlt')
        linarith

/-- Witness for the coverage theorem: the point `(5, 7)` of the sampled
rectangle `[0,10] × [0,10]` lies in one of the nine emitted tiles. -/
theorem split_geometry_covers_witness :
    (0 < 1 ∧ 3 * (attributes.length + 2) > 1 ∧ ((0 : ℚ) ≤ 10)) ∧
    ∃ g ∈ split_geometry 3 1 ⟨0, 0, 10, 10⟩ ⟨0, 0, 10, 10⟩,
      g.lat1 ≤ 5 ∧ (5 : ℚ) ≤ g.lat2 ∧ g.lon1 ≤ 7 ∧ (7 : ℚ) ≤ g.lon2 := by
  refine ⟨⟨by decide, by decide, by decide⟩, ?_⟩
  exact (split_geometry_covers 3 1 ⟨0, 0, 10, 10⟩ ⟨0, 0, 10, 10⟩
    (by decide) (by decide) (by decide) (by decide)).1 5 7
    (by decide) (by decide) (by decide) (by decide)

end Abyo

namespace Abyo

/-- Strings with equal character data are equal. -/
theorem str_data_inj {a b : String} (h : a.data = b.data) : a = b := by
  cases a
  cases b
  exact congrArg String.mk h

/-- Appending a fixed suffix is injective. -/
theorem str_append_right_cancel {a b c : String} (h : a ++ c = b ++ c) : a = b := by
  apply str_data_inj
  have h' := congrArg String.data h
  rw [String.data_append, String.data_append] at h'
  exact List.append_cancel_right h'

/-- Appending after a fixed prefix is injective. -/
theorem str_append_left_cancel {a b c : String} (h : a ++ b = a ++ c) : b = c := by
  apply str_data_inj
  have h' := congrArg String.data h
  rw [String.data_append, String.data_append] at h'
  exact List.append_cancel_left h'

/-- The series entry of `get_cache_files` spelled out: the `year`
argument does not occur in it. -/
theorem get_cache_files_series (p : CacheParams) (y : ℤ) :
    (get_cache_files p y).getD 1 "" =
      p.cache_path ++ "/" ++ MD5.md5hex (MD5.strBytes (series_key_input p)) := by
  unfold get_cache_files
  rfl

/-- **C2 (counterexample)**: changing only the `year` argument leaves the
series cache key unchanged — the year enters the image key suffix only,
while the series key hashes `years_list[0]` and `years_list[-1]`. -/
theorem cache_key_series_year_counterexample :
    (2000 : ℤ) ≠ 2001 ∧
    (get_cache_files p0 2000).getD 1 "" = (get_cache_files p0 2001).getD 1 "" :=
  ⟨by decide, (get_cache_files_series p0 2000).trans
    (get_cache_files_series p0 2001).symm⟩

/-- **C2 (amended)**: the cache-key builder is deterministic (two calls on
the same state agree); the series key does not depend on the `year`
argument; changing the `year` (with a different decimal string) changes
the digest pre-image of the image key; changing any single configuration
parameter changes the concatenated `prefix`, and any two states with
different prefixes (and the same `years_list`) have different digest
pre-images for both keys — so the keys themselves differ whenever MD5
does not collide on those pre-images. -/
theorem cache_keys_amended :
    (∀ (p : CacheParams) (y : ℤ), get_cache_files p y = get_cache_files p y) ∧
    (∀ (p : CacheParams) (y y' : ℤ),
      (get_cache_files p y).getD 1 "" = (get_cache_files p y').getD 1 "") ∧
    (∀ (p : CacheParams) (y y' : ℤ), toString y ≠ toString y' →
      image_key_input p y ≠ image_key_input p y') ∧
    (∀ (p : CacheParams) (v : String),
      keyPrefix { p with hash_string := v } = keyPrefix p → v = p.hash_string) ∧
    (∀ (p : CacheParams) (v : String),
      keyPrefix { p with date_start := v } = keyPrefix p → v = p.date_start) ∧
    (∀ (p : CacheParams) (v : String),
      keyPrefix { p with date_end := v } = keyPrefix p → v = p.date_end) ∧
    (∀ (p : CacheParams) (v : String),
      keyPrefix { p with date_start2 := v } = keyPrefix p → v = p.date_start2) ∧
    (∀ (p : CacheParams) (v : String),
      keyPrefix { p with date_end2 := v } = keyPrefix p → v = p.date_end2) ∧
    (∀ (p : CacheParams) (v : String),
      keyPrefix { p with lat_lon := v } = keyPrefix p → v = p.lat_lon) ∧
    (∀ (p : CacheParams) (v : String),
      keyPrefix { p with sensor := v } = keyPrefix p → v = p.sensor) ∧
    (∀ (p : CacheParams) (v : String),
      keyPrefix { p with morph_op := v } = keyPrefix p → v = p.morph_op) ∧
    (∀ (p : CacheParams) (v : String),
      keyPrefix { p with morph_op_iters := v } = keyPrefix p → v = p.morph_op_iters) ∧
    (∀ (p : CacheParams) (v : String),
      keyPrefix { p with indice_selected := v } = keyPrefix p → v = p.indice_selected) ∧
    (∀ (p : CacheParams) (v : String),
      keyPrefix { p with min_occurrence := v } = keyPrefix p → v = p.min_occurrence) ∧
    (∀ (p : CacheParams) (v : String),
      keyPrefix { p with shapefile_url := v } = keyPrefix p → v = p.shapefile_url) ∧
    (∀ (p p' : CacheParams) (y : ℤ), p.years_list = p'.years_list →
      keyPrefix p ≠ keyPrefix p' →
      image_key_input p y ≠ image_key_input p' y ∧
      series_key_input p ≠ series_key_input p') := by
  refine ⟨fun p y => rfl,
    fun p y y' => (get_cache_files_series p y).trans
      (get_cache_files_series p y').symm,
    ?_, ?_, ?_, ?_, ?_, ?_, ?_, ?_, ?_, ?_, ?_, ?_, ?_, ?_⟩
  · intro p y y' hne h
    unfold image_key_input at h
    exact hne (str_append_right_cancel (str_append_left_cancel h))
  · intro p v h
    simp only [keyPrefix, String.append_assoc] at h
    exact str_append_right_cancel h
  · intro p v h
    simp only [keyPrefix, String.append_assoc] at h
    exact str_append_right_cancel (str_append_left_cancel h)
  · intro p v h
    simp only [keyPrefix, String.append_assoc] at h
    exact str_append_right_cancel (str_append_left_cancel (str_append_left_cancel h))
  · intro p v h
    simp only [keyPrefix, String.append_assoc] at h
    exact str_append_right_cancel (str_append_left_cancel (str_append_left_cancel
      (str_append_left_cancel h)))
  · intro p v h
    simp only [keyPrefix, String.append_assoc] at h
    exact str_append_right_cancel (str_append_left_cancel (str_append_left_cancel
      (str_append_left_cancel (str_append_left_cancel h))))
  · intro p v h
    simp only [keyPrefix, String.append_assoc] at h
    exact str_append_right_cancel (str_append_left_cancel (str_append_left_cancel
      (str_append_left_cancel (str_append_left_cancel (str_append_left_cancel h)))))
  · intro p v h
    simp only [keyPrefix, String.append_assoc] at h
    exact str_append_right_cancel (str_append_left_cancel (str_append_left_cancel
      (str_append_left_cancel (str_append_left_cancel (str_append_left_cancel
      (str_append_left_cancel h))))))
  · intro p v h
    simp only [keyPrefix, String.append_assoc] at h
    exact str_append_right_cancel (str_append_left_cancel (str_append_left_cancel
      (str_append_left_cancel (str_append_left_cancel (str_append_left_cancel
      (str_append_left_cancel (str_append_left_cancel h)))))))
  · intro p v h
    simp only [keyPrefix, String.append_assoc] at h
    exact str_append_right_cancel (str_append_left_cancel (str_append_left_cancel
      (str_append_left_cancel (str_append_left_cancel (str_append_left_cancel
      (str_append_left_cancel (str_append_left_cancel (str_append_left_cancel h))))))))
  · intro p v h
    simp only [keyPrefix, String.append_assoc] at h
    exact str_append_right_cancel (str_append_left_cancel (str_append_left_cancel
      (str_append_left_cancel (str_append_left_cancel (str_append_left_cancel
      (str_append_left_cancel (str_append_left_cancel (str_append_left_cancel
      (str_append_left_cancel h)))))))))
  · intro p v h
    simp only [keyPrefix, String.append_assoc] at h
    exact str_append_right_cancel (str_append_left_cancel (str_append_left_cancel
      (str_append_left_cancel (str_append_left_cancel (str_append_left_cancel
      (str_append_left_cancel (str_append_left_cancel (str_append_left_cancel
      (str_append_left_cancel (str_append_left_cancel h))))))))))
  · intro p v h
    simp only [keyPrefix, String.append_assoc] at h
    exact str_append_left_cancel (str_append_left_cancel (str_append_left_cancel
      (str_append_left_cancel (str_append_left_cancel (str_append_left_cancel
      (str_append_left_cancel (str_append_left_cancel (str_append_left_cancel
      (str_append_left_cancel (str_append_left_cancel h))))))))))
  · intro p p' y hyears hpre
    constructor
    · intro h
      unfold image_key_input at h
      exact hpre (str_append_right_cancel h)
    · intro h
      unfold series_key_input at h
      rw [← hyears] at h
      exact hpre (str_append_right_cancel h)

set_option maxRecDepth 40000 in
set_option maxHeartbeats 4000000 in
/-- Witness for the amended cache-key theorem: on the concrete parameter
set the two years 2000 and 2001 give different image-key pre-images, a
sensor change gives a different prefix, and the resulting MD5 key files
differ. -/
theorem cache_keys_amended_witness :
    (toString (2000 : ℤ) ≠ toString (2001 : ℤ)) ∧
    image_key_input p0 2000 ≠ image_key_input p0 2001 ∧
    keyPrefix { p0 with sensor := "modis" } ≠ keyPrefix p0 ∧
    get_cache_files p0 2000 ≠ get_cache_files p0 2001 := by
  have h1 : toString (2000 : ℤ) ≠ toString (2001 : ℤ) := by decide
  refine ⟨h1, cache_keys_amended.2.2.1 p0 2000 2001 h1, by decide, by decide⟩

end Abyo
